import Mathlib

/-!
# Verification of the pinner core subsystems

A shallow embedding of the pinner repository's core data model and
operations, together with theorems settling the claims of the
specification against the code.

Conventions of the embedding:
* Skylinks and server names are `String`s (their canonical string form).
* Instants are `Nat` (milliseconds); the Go zero `time.Time` is `some 0`,
  an absent BSON field is `none`.
* The Mongo `skylinks` collection is a `List SkylinkRec` in natural
  (insertion) order; `FindOneAndUpdate` / `UpdateOne` act on the first
  matching record, `UpdateMany` on all matching records, and an upsert
  inserts a single document built from the equality clauses of the filter
  when no document matches (documented MongoDB semantics).
* Go errors are `Option String` (`none` = nil); a nil-pointer dereference
  is a distinguished outcome constructor rather than a value.
-/

namespace Pinner

/-- A record of the `skylinks` collection (`database/skylink.go`,
type `Skylink`).  `pinned` is `Option Bool` because the code filters with
`$ne false`, deliberately treating an absent field like `true`;
`lockExpires` is `Option Nat` because the code filters with
`$exists: false`. -/
structure SkylinkRec where
  skylink : String
  servers : List String
  pinned : Option Bool
  lockedBy : String
  lockExpires : Option Nat
  deriving DecidableEq, Repr

instance : Inhabited SkylinkRec := ⟨⟨"", [], none, "", none⟩⟩

/-- The fields of a record that locking and unlocking must not touch. -/
def recView (r : SkylinkRec) : String × List String × Option Bool :=
  (r.skylink, r.servers, r.pinned)

/-- Constant `LockDuration = 7 * time.Hour` (`database/skylink.go`), in milliseconds. -/
def LockDuration : Nat := 7 * 60 * 60 * 1000

/-- Error `ErrNoUnderpinnedSkylinks` (`database/skylink.go`). -/
def errNoUnderpinnedSkylinks : String := "no underpinned skylinks found"

/-- Error `ErrNoSkylinksLocked` (`database/skylink.go`). -/
def errNoSkylinksLocked : String := "no skylinks locked"

/-- Sentinel `mongo.ErrNoDocuments` of the Mongo driver. -/
def mongoErrNoDocuments : String := "mongo: no documents in result"

/-- The filter of `FindAndLockUnderpinned` (`database/skylink.go`,
lines 835-848): `pinned != false`, `|servers| < minPinners`,
`server ∉ servers`, and `lock_expires` absent or strictly in the past. -/
def underpinnedFilter (server : String) (minPinners now : Nat)
    (r : SkylinkRec) : Bool :=
  r.pinned != some false
    && r.servers.length < minPinners
    && !(r.servers.contains server)
    && (match r.lockExpires with
        | none => true
        | some t => t < now)

/-- Update of `FindAndLockUnderpinned`: set `locked_by = server` and
`lock_expires = now + LockDuration`. -/
def lockRec (server : String) (now : Nat) (r : SkylinkRec) : SkylinkRec :=
  { r with lockedBy := server, lockExpires := some (now + LockDuration) }

/-- Method `FindAndLockUnderpinned` (`database/skylink.go`, lines 834-871):
`FindOneAndUpdate` applies the `$set` to the first record matching the
filter and returns its skylink; with no match the driver reports
`ErrNoDocuments` and the method returns `ErrNoUnderpinnedSkylinks`.
The two `time.Now()` calls of the Go body are merged into one `now`. -/
def FindAndLockUnderpinned (db : List SkylinkRec) (server : String)
    (minPinners now : Nat) : Except String String × List SkylinkRec :=
  match db with
  | [] => (.error errNoUnderpinnedSkylinks, [])
  | r :: rest =>
    if underpinnedFilter server minPinners now r then
      (.ok r.skylink, lockRec server now r :: rest)
    else
      let (res, rest') := FindAndLockUnderpinned rest server minPinners now
      (res, r :: rest')

/-- Update of `UnlockSkylink`: set `locked_by = ""` and
`lock_expires = time.Time{}` (the zero instant). -/
def clearLockRec (r : SkylinkRec) : SkylinkRec :=
  { r with lockedBy := "", lockExpires := some 0 }

/-- The filter of `UnlockSkylink` (`database/skylink.go`, lines 904-907):
the record for the skylink whose `locked_by` equals the server. -/
def unlockFilter (sl server : String) (r : SkylinkRec) : Bool :=
  r.skylink == sl && r.lockedBy == server

/-- The `UpdateOne` underlying `UnlockSkylink`: apply the `$set` to the
first record matching the filter, reporting the Mongo `ModifiedCount`
(which counts actual changes, so an update writing the values already
present reports 0). -/
def updateOneUnlock (db : List SkylinkRec) (sl server : String) :
    List SkylinkRec × Nat :=
  match db with
  | [] => ([], 0)
  | r :: rest =>
    if unlockFilter sl server r then
      (clearLockRec r :: rest, if clearLockRec r = r then 0 else 1)
    else
      let (rest', n) := updateOneUnlock rest sl server
      (r :: rest', n)

/-- The result of a Go method that either returns an error value or hits a
nil-pointer dereference, together with the store contents it leaves. -/
inductive UnlockRes where
  | ret (err : Option String) (db : List SkylinkRec)
  | nilDeref
  deriving DecidableEq, Repr

/-- The outcome of the Mongo driver call `UpdateOne`: on failure the returned
`*UpdateResult` is nil and only the error is available. -/
inductive UpdateOneOutcome where
  | ok (db : List SkylinkRec) (modified : Nat)
  | fail (e : String)
  deriving DecidableEq, Repr

/-- Method `UnlockSkylink` (`database/skylink.go`, lines 901-919), given the
driver outcome `u` for its `UpdateOne` call on the store `orig`:

```go
ur, err := ...UpdateOne(ctx, filter, update)
if errors.Contains(err, mongo.ErrNoDocuments) || ur.ModifiedCount == 0 {
    return ErrNoSkylinksLocked
}
return err
```

When `UpdateOne` fails with an error other than `ErrNoDocuments`, the
first disjunct is false and `ur.ModifiedCount` dereferences the nil
result. -/
def UnlockSkylinkGo (orig : List SkylinkRec) (u : UpdateOneOutcome) :
    UnlockRes :=
  match u with
  | .fail e =>
    if e = mongoErrNoDocuments then .ret (some errNoSkylinksLocked) orig
    else .nilDeref
  | .ok db' n =>
    if n = 0 then .ret (some errNoSkylinksLocked) db'
    else .ret none db'

/-- Method `UnlockSkylink` under a working store: the driver performs the
update and returns its result. -/
def UnlockSkylink (db : List SkylinkRec) (sl server : String) :
    Option String × List SkylinkRec :=
  let (db', n) := updateOneUnlock db sl server
  if n = 0 then (some errNoSkylinksLocked, db') else (none, db')

/-- First index of a record matching the unlock filter: a spec-side helper
naming the record that the `UpdateOne` of `UnlockSkylink` targets. -/
def findLockedIdx (sl server : String) : List SkylinkRec → Option Nat
  | [] => none
  | r :: rest =>
    if unlockFilter sl server r then some 0
    else (findLockedIdx sl server rest).map (· + 1)

/-- Go list-append semantics of the Mongo `$addToSet` operator. -/
def addToSet (l : List String) (x : String) : List String :=
  if l.contains x then l else l ++ [x]

/-- Effect of the `AddServerForSkylinks` update document on a matching
record: `$addToSet` of the server into `servers`, plus `$set pinned: true`
when `markPinned` is raised (and no write to `pinned` otherwise). -/
def applyAddServer (server : String) (markPinned : Bool) (r : SkylinkRec) :
    SkylinkRec :=
  { r with servers := addToSet r.servers server,
           pinned := if markPinned then some true else r.pinned }

/-- The single document the upsert of `AddServerForSkylinks` inserts when
no record matches: the base document is built from the equality clauses of
the filter, and the filter `{"skylink": {"$in": skylinks}}` has none, so
the inserted document has no `skylink` field (decoded back into Go as the
empty string). -/
def upsertedAddDoc (server : String) (markPinned : Bool) : SkylinkRec :=
  { skylink := "", servers := [server],
    pinned := if markPinned then some true else none,
    lockedBy := "", lockExpires := none }

/-- Method `AddServerForSkylinks` (`database/skylink.go`, lines 787-803):
`UpdateMany` with `upsert: true` and filter `{"skylink": {"$in": skylinks}}`
updates every record of a listed skylink; only when no record at all
matches does the upsert insert its single base document. -/
def AddServerForSkylinks (db : List SkylinkRec) (skylinks : List String)
    (server : String) (markPinned : Bool) : List SkylinkRec :=
  if db.any (fun r => skylinks.contains r.skylink) then
    db.map (fun r =>
      if skylinks.contains r.skylink then applyAddServer server markPinned r
      else r)
  else
    db ++ [upsertedAddDoc server markPinned]

/-- Method `AddServerForSkylink` (the per-skylink variant the Scanner
calls): `UpdateOne` with `upsert: true` and the equality filter
`{"skylink": sl}` updates the first matching record or inserts a record
for `sl`. -/
def AddServerForSkylink (db : List SkylinkRec) (sl server : String)
    (markPinned : Bool) : List SkylinkRec :=
  match db with
  | [] => [{ skylink := sl, servers := [server],
             pinned := if markPinned then some true else none,
             lockedBy := "", lockExpires := none }]
  | r :: rest =>
    if r.skylink == sl then applyAddServer server markPinned r :: rest
    else r :: AddServerForSkylink rest sl server markPinned

/-- Method `RemoveServerFromSkylinks` (`database/skylink.go`, lines
808-818): `UpdateMany` pulling the server from the `servers` of every
record of a listed skylink that contains it. -/
def RemoveServerFromSkylinks (db : List SkylinkRec) (skylinks : List String)
    (server : String) : List SkylinkRec :=
  db.map (fun r =>
    if skylinks.contains r.skylink && r.servers.contains server then
      { r with servers := r.servers.filter (fun s => !(s == server)) }
    else r)

/-- Method `SkylinksForServer` (`database/skylink.go`, lines 877-897): the
skylinks of every record whose `servers` contains the server. -/
def SkylinksForServer (db : List SkylinkRec) (server : String) :
    List String :=
  (db.filter (fun r => r.servers.contains server)).map (fun r => r.skylink)

/-- Method `Diff` of the pinned-skylinks cache (`skyd/cache.go`):
`unknown` collects the given skylinks absent from the cache, `missing` the
cached skylinks absent from the input.  The Go map iteration order behind
`missing` is unspecified; the embedding keeps cache order. -/
def cacheDiff (cache : List String) (sls : List String) :
    List String × List String :=
  (sls.filter (fun sl => !(cache.contains sl)),
   cache.filter (fun sl => !(sls.contains sl)))

/-- Method `Remove` of the pinned-skylinks cache: map deletion. -/
def cacheRemove (cache : List String) (skylink : String) : List String :=
  cache.filter (fun sl => !(sl == skylink))

/-- The result of the client method `Unpin`: an error value plus the cache
contents it leaves, or a nil-pointer dereference. -/
inductive UnpinRes where
  | ret (err : Option String) (cache : List String)
  | nilDeref
  deriving DecidableEq, Repr

/-- Client method `Unpin` (`skyd/skyd.go`, lines 148-158), with `unpinErr`
the error of the underlying `SkynetSkylinkUnpinPost` call:

```go
err := c.staticClient.SkynetSkylinkUnpinPost(skylink)
// Update the cached status of the skylink if there is no error or the error
// indicates that the skylink is blocked.
if err != nil || strings.Contains(err.Error(), renter.ErrSkylinkBlocked.Error()) {
    c.staticSkylinksCache.Remove(skylink)
}
return err
```

With a non-nil `err` the first disjunct short-circuits to true, so the
blocked-sentinel check is never consulted; with a nil `err` the second
disjunct calls `err.Error()` on a nil interface. -/
def Unpin (cache : List String) (unpinErr : Option String)
    (skylink : String) : UnpinRes :=
  match unpinErr with
  | some e => .ret (some e) (cacheRemove cache skylink)
  | none => .nilDeref

/-- Sweep status snapshot (`sweeper/sweeper.go`, type `Status`). -/
structure SweepStatus where
  inProgress : Bool
  error : Option String
  startTime : Nat
  endTime : Nat
  deriving DecidableEq, Repr

/-- Method `Start` of the status (`sweeper/sweeper.go`, lines 120-133):
under the mutex, return without action when a sweep is in progress,
otherwise set `InProgress`, clear the error and end time, and stamp the
start time.  The Go method returns nothing. -/
def statusStart (st : SweepStatus) (now : Nat) : SweepStatus :=
  if st.inProgress then st
  else { inProgress := true, error := none, startTime := now, endTime := 0 }

/-- Method `Finalize` of the status (`sweeper/sweeper.go`, lines 136-142). -/
def statusFinalize (st : SweepStatus) (e : Option String) (now : Nat) :
    SweepStatus :=
  { st with inProgress := false, endTime := now, error := e }

/-- The store and cache operations a sweep can perform, in order. -/
inductive SweepOp where
  | rebuildCache
  | fetchSkylinks
  | removeServer
  | addServer
  deriving DecidableEq, Repr

/-- External outcomes of one sweep: the error the awaited cache rebuild
reports, and the transport failures, if any, of the three store calls. -/
structure SweepEnv where
  rebuildErr : Option String
  fetchErr : Option String
  removeErr : Option String
  addErr : Option String
  deriving DecidableEq, Repr

/-- What a sweep leaves behind: the published status, the store contents,
and the trace of store and cache operations it performed. -/
structure SweepOutcome where
  status : SweepStatus
  db : List SkylinkRec
  trace : List SweepOp
  deriving DecidableEq, Repr

/-- Body of `threadedPerformSweep` (`sweeper/sweeper.go`, lines 71-116),
everything after the `InProgress` guard.  `cache` is the content the
rebuilt PinnedSet holds when `DiffPinnedSkylinks` runs; `t0` and `t1`
stamp `Start` and `Finalize`.

The Go body declares `var err error` and then defers
`s.staticStatus.Finalize(err)`.  Go evaluates the arguments of a deferred
call when the `defer` statement executes, so the deferred `Finalize`
always receives the nil error captured at that point, whatever `err` is
later assigned; the embedding names that captured value `deferredErr`. -/
def sweepBody (st : SweepStatus) (db : List SkylinkRec)
    (cache : List String) (env : SweepEnv) (server : String)
    (t0 t1 : Nat) : SweepOutcome :=
  let st1 := statusStart st t0
  let deferredErr : Option String := none
  match env.fetchErr with
  | some _ => ⟨statusFinalize st1 deferredErr t1, db,
      [.rebuildCache, .fetchSkylinks]⟩
  | none =>
    match env.rebuildErr with
    | some _ => ⟨statusFinalize st1 deferredErr t1, db,
        [.rebuildCache, .fetchSkylinks]⟩
    | none =>
      let dbSkylinks := SkylinksForServer db server
      let (unknown, missing) := cacheDiff cache dbSkylinks
      match env.removeErr with
      | some _ => ⟨statusFinalize st1 deferredErr t1, db,
          [.rebuildCache, .fetchSkylinks, .removeServer]⟩
      | none =>
        let db1 := RemoveServerFromSkylinks db unknown server
        match env.addErr with
        | some _ => ⟨statusFinalize st1 deferredErr t1, db1,
            [.rebuildCache, .fetchSkylinks, .removeServer, .addServer]⟩
        | none =>
          ⟨statusFinalize st1 deferredErr t1,
            AddServerForSkylinks db1 missing server false,
            [.rebuildCache, .fetchSkylinks, .removeServer, .addServer]⟩

/-- Method `threadedPerformSweep` (`sweeper/sweeper.go`, lines 67-116):
the unsynchronized `InProgress` pre-check, then the body. -/
def threadedPerformSweep (st : SweepStatus) (db : List SkylinkRec)
    (cache : List String) (env : SweepEnv) (server : String)
    (t0 t1 : Nat) : SweepOutcome :=
  if st.inProgress then ⟨st, db, []⟩
  else sweepBody st db cache env server t0 t1

/-- Outcome of one `FileHealth` call of the health-wait loop, classified
by the two tests the loop applies: a non-nil error, or
`skymodules.NeedsRepair(health)`. -/
inductive HealthResp where
  | fail
  | healthy
  | unhealthy
  deriving DecidableEq, Repr

/-- The select arm that fires for an iteration of the health-wait loop. -/
inductive WaitEv where
  | tick
  | deadline
  | stop
  deriving DecidableEq, Repr

/-- How the health-wait loop ended (`running` = fuel exhausted, the loop
had not exited yet). -/
inductive WaitExit where
  | errBreak
  | healthyBreak
  | stopReturn
  | running
  deriving DecidableEq, Repr

/-- Method `managedWaitUntilHealthy` (`workers/scanner.go` revision in
`unnamed/part_021`, lines 332-361), as a function of the per-iteration
daemon responses and select outcomes; the second component counts the
`FileHealth` calls made.

```go
for {
    health, err := s.staticSkydClient.FileHealth(sp)
    if err != nil { ...; break }
    if !skymodules.NeedsRepair(health) { break }
    select {
    case <-ticker.C: ...
    case <-deadlineTimer.C: ...; break
    case <-s.staticTG.StopChan(): return
    }
}
```

The `break` in the deadline arm terminates the innermost enclosing
statement, which is the `select`, so control returns to the top of the
`for` loop. -/
def managedWaitUntilHealthy (resps : Nat → HealthResp) (evs : Nat → WaitEv) :
    Nat → Nat → Nat → WaitExit × Nat
  | 0, _, checks => (.running, checks)
  | fuel + 1, i, checks =>
    match resps i with
    | .fail => (.errBreak, checks + 1)
    | .healthy => (.healthyBreak, checks + 1)
    | .unhealthy =>
      match evs i with
      | .tick => managedWaitUntilHealthy resps evs fuel (i + 1) (checks + 1)
      | .deadline => managedWaitUntilHealthy resps evs fuel (i + 1) (checks + 1)
      | .stop => (.stopReturn, checks + 1)

/-- Outcome of the daemon `Pin` call, classified by the three tests the
scanner applies: the `ErrSkylinkAlreadyPinned` sentinel, the two
unrecoverable substrings, or any other error. -/
inductive PinOutcome where
  | success
  | alreadyPinned
  | unrecoverable (e : String)
  | otherErr (e : String)
  deriving DecidableEq, Repr

/-- The observable result of `managedFindAndPinOneUnderpinnedSkylink`: its
four return values (the zero `Skylink` rendered as `""`; the `SiaPath` is
omitted), the store it leaves, and whether the daemon `Pin` and the store
`UnlockSkylink` were called. -/
structure FindPinResult where
  skylink : String
  continueScanning : Bool
  err : Option String
  db : List SkylinkRec
  pinCalled : Bool
  unlockCalled : Bool
  deriving DecidableEq, Repr

/-- Method `managedFindAndPinOneUnderpinnedSkylink` (`workers/scanner.go`
revision in `unnamed/part_021`, lines 214-272).  The two early returns on
a failed `FindAndLockUnderpinned` happen before the deferred unlock is
registered; on every later path the deferred closure assigns the
`UnlockSkylink` result to the named return value `err`, overwriting it. -/
def managedFindAndPinOne (db : List SkylinkRec) (server : String)
    (minPinners now : Nat) (dryRun : Bool) (pinOut : PinOutcome) :
    FindPinResult :=
  match FindAndLockUnderpinned db server minPinners now with
  | (.error e, dbE) => ⟨"", false, some e, dbE, false, false⟩
  | (.ok sl, db') =>
    if dryRun then
      let (ue, db2) := UnlockSkylink db' sl server
      ⟨"", false, ue, db2, false, true⟩
    else
      match pinOut with
      | .alreadyPinned =>
        let db2 := AddServerForSkylink db' sl server false
        let (ue, db3) := UnlockSkylink db2 sl server
        ⟨"", true, ue, db3, true, true⟩
      | .unrecoverable _ =>
        let (ue, db2) := UnlockSkylink db' sl server
        ⟨"", false, ue, db2, true, true⟩
      | .otherErr _ =>
        let (ue, db2) := UnlockSkylink db' sl server
        ⟨"", true, ue, db2, true, true⟩
      | .success =>
        let db2 := AddServerForSkylink db' sl server false
        let (ue, db3) := UnlockSkylink db2 sl server
        ⟨sl, true, ue, db3, true, true⟩

end Pinner

namespace Pinner

/-- Under a working store `UnlockSkylinkGo` agrees with `UnlockSkylink`
(shared helper; the `ok` outcome of the driver is the computed update). -/
theorem unlockSkylinkGo_ok (db : List SkylinkRec) (sl server : String) :
    UnlockSkylinkGo db (.ok (updateOneUnlock db sl server).1
      (updateOneUnlock db sl server).2)
      = .ret (UnlockSkylink db sl server).1 (UnlockSkylink db sl server).2 := by
  simp only [UnlockSkylinkGo, UnlockSkylink]
  by_cases h : (updateOneUnlock db sl server).2 = 0 <;> simp [h]

/-- C4: method `FindAndLockUnderpinned` selects only records satisfying
the whole predicate (pinned not explicitly false, fewer than `minPinners`
servers, the server absent, no live lock), locks the selected record by
setting `locked_by` and `lock_expires = now + LockDuration`, returns its
skylink, and with no matching record fails with
`ErrNoUnderpinnedSkylinks` leaving every record unchanged. -/
theorem findAndLockUnderpinned_spec (db : List SkylinkRec) (server : String)
    (minPinners now : Nat) :
    (match FindAndLockUnderpinned db server minPinners now with
     | (.ok sl, db') => ∃ i : Fin db.length,
         underpinnedFilter server minPinners now (db.get i) = true
         ∧ (∀ j : Fin db.length, (j : Nat) < (i : Nat) →
             underpinnedFilter server minPinners now (db.get j) = false)
         ∧ sl = (db.get i).skylink
         ∧ db' = db.set i (lockRec server now (db.get i))
     | (.error e, db') => e = errNoUnderpinnedSkylinks ∧ db' = db
         ∧ ∀ r ∈ db, underpinnedFilter server minPinners now r = false) := by
  induction db with
  | nil => simp [FindAndLockUnderpinned]
  | cons r rest ih =>
    by_cases h : underpinnedFilter server minPinners now r = true
    · simp only [FindAndLockUnderpinned, h, if_true]
      exact ⟨⟨0, by simp⟩, by simpa using h, by simp, by simp [List.set]⟩
    · simp only [FindAndLockUnderpinned, h, Bool.false_eq_true, if_false]
      revert ih
      cases hrec : FindAndLockUnderpinned rest server minPinners now with
      | mk res rest' =>
        cases res with
        | ok sl =>
          intro ih
          obtain ⟨i, hi1, hi2, hi3, hi4⟩ := ih
          refine ⟨⟨i + 1, by simp only [List.length_cons]; exact Nat.succ_lt_succ i.isLt⟩,
            hi1, ?_, hi3, ?_⟩
          · intro j hj
            rcases j with ⟨jj, hjj⟩
            cases jj with
            | zero => simp only [List.get, Bool.not_eq_true] at h ⊢; exact h
            | succ jj' =>
              simpa using hi2 ⟨jj', by simpa using hjj⟩ (by simpa using hj)
          · subst hi4
            simp only [List.set]
            congr 2
        | error e =>
          intro ih
          obtain ⟨h1, h2, h3⟩ := ih
          refine ⟨h1, by rw [h2], ?_⟩
          intro x hx
          rcases List.mem_cons.mp hx with hx' | hx'
          · simpa [hx'] using h
          · exact h3 x hx'

/-- C10: when the underlying `UpdateOne` fails with any error other than
the no-documents sentinel (e.g. a store timeout), `UnlockSkylink`
dereferences the nil update result (`ur.ModifiedCount`) before checking
the error, instead of returning that error to the caller. -/
theorem unlockSkylink_nil_deref (orig : List SkylinkRec) (e : String)
    (h : e ≠ mongoErrNoDocuments) :
    UnlockSkylinkGo orig (.fail e) = .nilDeref := by
  simp [UnlockSkylinkGo, h]

/-- Witness for C10: a store timeout during `UnlockSkylink` hits the nil
dereference. -/
theorem unlockSkylink_nil_deref_witness :
    UnlockSkylinkGo [] (.fail "connection() error occurred during connection handshake: context deadline exceeded") = .nilDeref :=
  unlockSkylink_nil_deref [] _ (by decide)

/-- C9: method `UnlockSkylink` clears the lock (sets `locked_by` to empty
and `lock_expires` to the zero instant, together) exactly on the record
for the skylink whose `locked_by` equals the given server, leaving every
other record unchanged; when no record for the skylink is locked by the
server it returns `ErrNoSkylinksLocked` and modifies no record. -/
theorem unlockSkylink_spec (db : List SkylinkRec) (sl server : String) :
    (∀ i, findLockedIdx sl server db = some i →
      (UnlockSkylink db sl server).2 = db.set i (clearLockRec (db.getD i default)))
    ∧ (findLockedIdx sl server db = none →
      UnlockSkylink db sl server = (some errNoSkylinksLocked, db)) := by
  have key : ∀ l : List SkylinkRec,
      (∀ i, findLockedIdx sl server l = some i →
        (updateOneUnlock l sl server).1 = l.set i (clearLockRec (l.getD i default)))
      ∧ (findLockedIdx sl server l = none →
        updateOneUnlock l sl server = (l, 0)) := by
    intro l
    induction l with
    | nil => simp [updateOneUnlock, findLockedIdx]
    | cons r rest ih =>
      by_cases h : unlockFilter sl server r = true
      · refine ⟨?_, ?_⟩
        · intro i hi
          simp only [findLockedIdx, h, if_true, Option.some.injEq] at hi
          subst hi
          simp [updateOneUnlock, h, List.set]
        · intro hnone
          simp [findLockedIdx, h] at hnone
      · refine ⟨?_, ?_⟩
        · intro i hi
          simp only [findLockedIdx, h, Bool.false_eq_true, if_false] at hi
          cases hrest : findLockedIdx sl server rest with
          | none => rw [hrest] at hi; simp at hi
          | some k =>
            rw [hrest] at hi
            have hi' : i = k + 1 := by simpa using hi.symm
            subst hi'
            have hk := ih.1 k hrest
            simp only [updateOneUnlock, h, Bool.false_eq_true, if_false]
            cases hu : updateOneUnlock rest sl server with
            | mk rest2 n =>
              rw [hu] at hk
              simp only at hk
              simp [hk, List.set, List.getD]
        · intro hnone
          simp only [findLockedIdx, h, Bool.false_eq_true, if_false] at hnone
          cases hrest : findLockedIdx sl server rest with
          | none =>
            have := ih.2 hrest
            simp [updateOneUnlock, h, this]
          | some k => rw [hrest] at hnone; simp at hnone
  refine ⟨?_, ?_⟩
  · intro i hi
    have h1 := (key db).1 i hi
    simp only [UnlockSkylink]
    by_cases h : (updateOneUnlock db sl server).2 = 0 <;> simp [h, h1]
  · intro hnone
    have h2 := (key db).2 hnone
    simp [UnlockSkylink, h2]

/-- Witness for C9: unlocking a record locked by the server clears the
lock, and unlocking when the lock is held by another server fails and
changes nothing. -/
theorem unlockSkylink_spec_witness :
    (UnlockSkylink [⟨"a", ["s2"], some true, "s1", some 99⟩] "a" "s1").2
        = [⟨"a", ["s2"], some true, "", some 0⟩]
    ∧ UnlockSkylink [⟨"a", ["s2"], some true, "s2", some 99⟩] "a" "s1"
        = (some errNoSkylinksLocked, [⟨"a", ["s2"], some true, "s2", some 99⟩]) := by
  refine ⟨?_, ?_⟩
  · have := (unlockSkylink_spec [⟨"a", ["s2"], some true, "s1", some 99⟩] "a" "s1").1
      0 (by decide)
    simpa using this
  · exact (unlockSkylink_spec [⟨"a", ["s2"], some true, "s2", some 99⟩] "a" "s1").2
      (by decide)

end Pinner

namespace Pinner

/-- C1: counter-evaluation.  A sweep whose store read fails (first
conjunct) or whose cache rebuild fails (second conjunct) still publishes
`Error = none`: the deferred `Finalize(err)` captured the nil error when
the defer statement executed, so the failure never reaches the status. -/
theorem sweep_error_not_published :
    (threadedPerformSweep ⟨false, none, 0, 0⟩ [] []
        ⟨none, some "context deadline exceeded", none, none⟩ "s1" 3 9).status
      = ⟨false, none, 3, 9⟩
    ∧ (threadedPerformSweep ⟨false, none, 0, 0⟩ [] []
        ⟨some "failed to walk the Skynet folder", none, none, none⟩ "s1" 3 9).status
      = ⟨false, none, 3, 9⟩ := by
  exact ⟨rfl, rfl⟩

/-- C2: counter-evaluation.  With the file still needing repair when the
deadline fires in the first iteration, the loop performs a second
`FileHealth` call (first conjunct), and with the file never healthy it
keeps polling for as long as the fuel lasts even though the deadline
fired immediately (second conjunct): the `break` in the deadline arm only
exits the `select`. -/
theorem waitUntilHealthy_checks_after_deadline :
    managedWaitUntilHealthy
        (fun i => if i = 0 then .unhealthy else .healthy)
        (fun _ => .deadline) 5 0 0 = (.healthyBreak, 2)
    ∧ managedWaitUntilHealthy (fun _ => .unhealthy) (fun _ => .deadline) 4 0 0
      = (.running, 4) := by
  exact ⟨rfl, rfl⟩

/-- C3: counter-evaluation.  A successful daemon unpin makes `Unpin`
dereference the nil error (first conjunct), and a failure unrelated to
the blocked sentinel still removes the skylink from the cache (second
conjunct): the guard reads `err != nil` where its own comment asks for
`err == nil`. -/
theorem unpin_guard_inverted :
    Unpin ["sk"] none "sk" = .nilDeref
    ∧ Unpin ["sk"] (some "unable to unpin, file does not exist") "sk"
      = .ret (some "unable to unpin, file does not exist") [] := by
  exact ⟨rfl, rfl⟩

/-- C5: counter-evaluation.  The local daemon holds `{a, b, d}`, the store
records `b` for the server and has a record for `d` (held by another
server) but none for `a`.  The sweep finishes with a success status, yet
`SkylinksForServer` afterwards returns `[b, d]` and not the daemon
content: the skylink `a`, which has no record at all, was never inserted,
because the `UpdateMany` upsert of `AddServerForSkylinks` inserts nothing
when some other listed skylink matches. -/
theorem sweep_misses_unrecorded_skylink :
    (threadedPerformSweep ⟨false, none, 0, 0⟩
        [⟨"b", ["s1"], some true, "", some 0⟩,
         ⟨"d", ["s2"], some true, "", some 0⟩]
        ["a", "b", "d"] ⟨none, none, none, none⟩ "s1" 3 9).status
      = ⟨false, none, 3, 9⟩
    ∧ SkylinksForServer
        (threadedPerformSweep ⟨false, none, 0, 0⟩
          [⟨"b", ["s1"], some true, "", some 0⟩,
           ⟨"d", ["s2"], some true, "", some 0⟩]
          ["a", "b", "d"] ⟨none, none, none, none⟩ "s1" 3 9).db "s1"
      = ["b", "d"] := by
  exact ⟨rfl, rfl⟩

/-- C6: counter-evaluation.  Called with skylinks `[a, d]` where only `d`
has a record, `AddServerForSkylinks` adds the server to `d` and creates no
record for `a`: `UpdateMany` with `upsert: true` inserts only when no
document matches the filter, so no record is upserted per missing
skylink. -/
theorem addServerForSkylinks_no_insert_when_any_match :
    AddServerForSkylinks [⟨"d", ["s2"], some true, "", some 0⟩]
        ["a", "d"] "s1" false
      = [⟨"d", ["s2", "s1"], some true, "", some 0⟩]
    ∧ ∀ r ∈ AddServerForSkylinks [⟨"d", ["s2"], some true, "", some 0⟩]
        ["a", "d"] "s1" false, r.skylink ≠ "a" := by
  refine ⟨rfl, by decide⟩

/-- C7: counterexample.  A status with `InProgress = true` at the moment
`Start` runs (the invocation passed its earlier unsynchronized pre-check
before a parallel sweep started): `Start` is a no-op compare-and-set that
reports nothing to its caller, and the body still performs its store and
cache operations — a caller that lost the race acts anyway. -/
theorem sweepBody_acts_after_losing_start :
    (⟨true, none, 5, 0⟩ : SweepStatus).inProgress = true
    ∧ statusStart ⟨true, none, 5, 0⟩ 7 = ⟨true, none, 5, 0⟩
    ∧ (sweepBody ⟨true, none, 5, 0⟩ [] [] ⟨none, none, none, none⟩
        "s1" 7 9).trace ≠ [] := by
  refine ⟨rfl, rfl, by decide⟩

/-- C7 (amended): an invocation of the sweep whose pre-check observes
`InProgress = true` returns without performing any store or cache
operation and without modifying the status; `Start` is a compare-and-set
from `InProgress = false` that stamps the start time, but it returns
nothing, so it does not report to its caller whether it won. -/
theorem sweep_guard_and_start_cas (st : SweepStatus) (db : List SkylinkRec)
    (cache : List String) (env : SweepEnv) (server : String) (t0 t1 : Nat) :
    (st.inProgress = true →
      threadedPerformSweep st db cache env server t0 t1 = ⟨st, db, []⟩)
    ∧ (st.inProgress = true → statusStart st t0 = st)
    ∧ (st.inProgress = false → statusStart st t0 = ⟨true, none, t0, 0⟩) := by
  refine ⟨?_, ?_, ?_⟩ <;> intro h <;>
    simp [threadedPerformSweep, statusStart, h]

/-- Witness for the amended C7: a busy status makes the sweep a no-op,
and an idle status is CAS-ed to running. -/
theorem sweep_guard_and_start_cas_witness :
    threadedPerformSweep ⟨true, none, 5, 0⟩ [] [] ⟨none, none, none, none⟩
        "s1" 7 9 = ⟨⟨true, none, 5, 0⟩, [], []⟩
    ∧ statusStart ⟨false, none, 1, 2⟩ 7 = ⟨true, none, 7, 0⟩ :=
  ⟨(sweep_guard_and_start_cas ⟨true, none, 5, 0⟩ [] []
      ⟨none, none, none, none⟩ "s1" 7 9).1 rfl,
   (sweep_guard_and_start_cas ⟨false, none, 1, 2⟩ [] []
      ⟨none, none, none, none⟩ "s1" 7 9).2.2 rfl⟩

end Pinner

namespace Pinner

/-- Helper: a successful `FindAndLockUnderpinned` returns the skylink of
one of the records. -/
theorem findAndLock_ok_mem (server : String) (minPinners now : Nat) :
    ∀ (db db' : List SkylinkRec) (sl : String),
      FindAndLockUnderpinned db server minPinners now = (.ok sl, db') →
      sl ∈ db.map (fun r => r.skylink) := by
  intro db
  induction db with
  | nil =>
    intro db' sl h
    simp [FindAndLockUnderpinned, Prod.ext_iff] at h
  | cons r rest ih =>
    intro db' sl h
    by_cases hf : underpinnedFilter server minPinners now r = true
    · simp only [FindAndLockUnderpinned, hf, if_true, Prod.mk.injEq] at h
      have hsl : r.skylink = sl := by simpa using h.1
      simp [hsl.symm]
    · cases hrec : FindAndLockUnderpinned rest server minPinners now with
      | mk res rest2 =>
        simp only [FindAndLockUnderpinned, hf, Bool.false_eq_true, if_false,
          hrec, Prod.mk.injEq] at h
        obtain ⟨h1, h2⟩ := h
        subst h1
        exact List.mem_cons.mpr (Or.inr (ih rest2 sl hrec))

/-- Helper: after `FindAndLockUnderpinned` succeeds with `sl` on a store
with unique skylinks, the `UpdateOne` of `UnlockSkylink` modifies exactly
one record, restores every skylink, servers list and pinned flag to the
original, and leaves no record for `sl` locked. -/
theorem lock_unlock_round_trip (server : String) (minPinners now : Nat) :
    ∀ (db db' : List SkylinkRec) (sl : String),
      FindAndLockUnderpinned db server minPinners now = (.ok sl, db') →
      (db.map fun r => r.skylink).Nodup →
      (updateOneUnlock db' sl server).2 = 1
      ∧ (updateOneUnlock db' sl server).1.map recView = db.map recView
      ∧ ∀ x ∈ (updateOneUnlock db' sl server).1,
          x.skylink = sl → x.lockedBy = "" := by
  intro db
  induction db with
  | nil =>
    intro db' sl h
    simp [FindAndLockUnderpinned, Prod.ext_iff] at h
  | cons r rest ih =>
    intro db' sl h hnd
    rw [List.map_cons] at hnd
    have hnd' := List.nodup_cons.mp hnd
    by_cases hf : underpinnedFilter server minPinners now r = true
    · simp only [FindAndLockUnderpinned, hf, if_true, Prod.mk.injEq] at h
      obtain ⟨h1, h2⟩ := h
      have hsl : r.skylink = sl := by simpa using h1
      subst h2
      have hfil : unlockFilter sl server (lockRec server now r) = true := by
        simp [unlockFilter, lockRec, hsl]
      have hne : ¬ (clearLockRec (lockRec server now r) = lockRec server now r) := by
        intro heq
        have hexp := congrArg SkylinkRec.lockExpires heq
        simp [clearLockRec, lockRec, LockDuration] at hexp
      refine ⟨?_, ?_, ?_⟩
      · simp [updateOneUnlock, hfil, hne]
      · simp only [updateOneUnlock, hfil, if_true]
        simp [recView, clearLockRec, lockRec]
      · intro x hx hxsl
        simp only [updateOneUnlock, hfil, if_true] at hx
        rcases List.mem_cons.mp hx with hx' | hx'
        · subst hx'
          rfl
        · exfalso
          have hmem : x.skylink ∈ rest.map (fun r => r.skylink) :=
            List.mem_map.mpr ⟨x, hx', rfl⟩
          rw [hxsl, ← hsl] at hmem
          exact hnd'.1 hmem
    · cases hrec : FindAndLockUnderpinned rest server minPinners now with
      | mk res rest2 =>
        simp only [FindAndLockUnderpinned, hf, Bool.false_eq_true, if_false,
          hrec, Prod.mk.injEq] at h
        obtain ⟨h1, h2⟩ := h
        subst h1
        subst h2
        have hmem : sl ∈ rest.map (fun r => r.skylink) :=
          findAndLock_ok_mem server minPinners now rest rest2 sl hrec
        have hne : ¬ (r.skylink = sl) := fun hh => hnd'.1 (hh ▸ hmem)
        have hbeq : (r.skylink == sl) = false := beq_eq_false_iff_ne.mpr hne
        have hfil : unlockFilter sl server r = false := by
          simp [unlockFilter, hbeq]
        obtain ⟨ih1, ih2, ih3⟩ := ih rest2 sl hrec hnd'.2
        cases hu : updateOneUnlock rest2 sl server with
        | mk upd n =>
          rw [hu] at ih1 ih2 ih3
          simp only at ih1 ih2 ih3
          refine ⟨?_, ?_, ?_⟩
          · simp [updateOneUnlock, hfil, hu, ih1]
          · simp [updateOneUnlock, hfil, hu, ih2]
          · intro x hx hxsl
            simp only [updateOneUnlock, hfil, Bool.false_eq_true, if_false,
              hu] at hx
            rcases List.mem_cons.mp hx with hx' | hx'
            · exact absurd (hx' ▸ hxsl) hne
            · exact ih3 x hx' hxsl

end Pinner

namespace Pinner

/-- C8: with `dry_run` set, an iteration in which `FindAndLockUnderpinned`
returns a skylink never calls the daemon `Pin`, leaves the servers set and
pinned flag of every record unchanged, calls `UnlockSkylink` (releasing
the lock, so no record for the skylink stays locked), and signals the
inner pin loop to exit (`continueScanning = false`). -/
theorem scanner_dry_run_no_pin (db : List SkylinkRec) (server : String)
    (minPinners now : Nat) (pinOut : PinOutcome) (sl : String)
    (db' : List SkylinkRec)
    (hfound : FindAndLockUnderpinned db server minPinners now = (.ok sl, db'))
    (hnd : (db.map fun r => r.skylink).Nodup) :
    (managedFindAndPinOne db server minPinners now true pinOut).pinCalled = false
    ∧ (managedFindAndPinOne db server minPinners now true pinOut).unlockCalled = true
    ∧ (managedFindAndPinOne db server minPinners now true pinOut).continueScanning = false
    ∧ (managedFindAndPinOne db server minPinners now true pinOut).db.map recView
        = db.map recView
    ∧ ∀ x ∈ (managedFindAndPinOne db server minPinners now true pinOut).db,
        x.skylink = sl → x.lockedBy = "" := by
  obtain ⟨h1, h2, h3⟩ :=
    lock_unlock_round_trip server minPinners now db db' sl hfound hnd
  have hun : UnlockSkylink db' sl server
      = (none, (updateOneUnlock db' sl server).1) := by
    simp [UnlockSkylink, h1]
  have hred : managedFindAndPinOne db server minPinners now true pinOut
      = ⟨"", false, none, (updateOneUnlock db' sl server).1, false, true⟩ := by
    simp [managedFindAndPinOne, hfound, hun]
  rw [hred]
  exact ⟨rfl, rfl, rfl, h2, h3⟩

/-- Witness for C8: a dry-run iteration over a store with a single
underpinned record locks and unlocks it without pinning. -/
theorem scanner_dry_run_no_pin_witness :
    (managedFindAndPinOne [⟨"a", [], some true, "", none⟩]
        "s1" 1 10 true .success).pinCalled = false
    ∧ (managedFindAndPinOne [⟨"a", [], some true, "", none⟩]
        "s1" 1 10 true .success).unlockCalled = true
    ∧ (managedFindAndPinOne [⟨"a", [], some true, "", none⟩]
        "s1" 1 10 true .success).continueScanning = false
    ∧ (managedFindAndPinOne [⟨"a", [], some true, "", none⟩]
        "s1" 1 10 true .success).db.map recView
      = [⟨"a", [], some true, "", none⟩].map recView
    ∧ ∀ x ∈ (managedFindAndPinOne [⟨"a", [], some true, "", none⟩]
        "s1" 1 10 true .success).db, x.skylink = "a" → x.lockedBy = "" :=
  scanner_dry_run_no_pin [⟨"a", [], some true, "", none⟩] "s1" 1 10 .success
    "a" [⟨"a", [], some true, "s1", some (10 + LockDuration)⟩]
    rfl (by decide)

end Pinner
